import Mathlib

/-! Shallow embedding of the `simple_money` and `tax_engine` crates.

The Rust `Decimal` type is modelled as `ℚ` (exact arithmetic; `rust_decimal`
division by a nonzero divisor differs from exact division only by rounding at
the 28th significant digit, which no property below depends on).  Rust panics
are modelled explicitly: `Money` addition and subtraction on mismatched
currencies return `none`, and `Exchange.set_rate` returns the final table
state paired with a `Bool` that is `true` exactly when the Rust code panics
(division of `Decimal::new(1,0)` by a zero rate), the table then holding only
the inserts performed before the panic.  The Rust comparison operators on
`Money` go through `PartialOrd`, whose `partial_cmp` yields `None` on a
currency mismatch, so `<`, `<=`, `>=` are total `Bool`s that are `false`
whenever the currencies differ.  `HashMap` is modelled as a function to
`Option`, with insertion as pointwise update (last insert wins). -/

inductive Currency
  | CAD
  | USD
deriving DecidableEq

inductive MoneyError
  | CouldNotFindExchangeRate
  | MismatchedCurrencies
deriving DecidableEq

structure Money where
  amount : ℚ
  currency : Currency
deriving DecidableEq

/-- Rust `first < second` on `Money` via `PartialOrd`: `partial_cmp` is
`Some Less` iff the currencies agree and the first amount is smaller;
on a currency mismatch the operator is `false`. -/
def Money.lt (a b : Money) : Bool :=
  decide (a.currency = b.currency) && decide (a.amount < b.amount)

/-- Rust `first <= second` on `Money` via `PartialOrd`. -/
def Money.le (a b : Money) : Bool :=
  decide (a.currency = b.currency) && decide (a.amount ≤ b.amount)

/-- Rust `first >= second` on `Money` via `PartialOrd`. -/
def Money.ge (a b : Money) : Bool :=
  decide (a.currency = b.currency) && decide (b.amount ≤ a.amount)

/-- Rust `Add for Money`: panics (`none`) on a currency mismatch, otherwise
adds the amounts and keeps the left operand's currency. -/
def Money.add? (a b : Money) : Option Money :=
  if a.currency = b.currency then some ⟨a.amount + b.amount, a.currency⟩ else none

/-- Rust `Sub for Money`: panics (`none`) on a currency mismatch. -/
def Money.sub? (a b : Money) : Option Money :=
  if a.currency = b.currency then some ⟨a.amount - b.amount, a.currency⟩ else none

/-- Rust `Mul<Decimal> for Money`: scales the amount, keeps the currency. -/
def Money.mulDec (a : Money) (r : ℚ) : Money :=
  ⟨a.amount * r, a.currency⟩

/-- Rust `ExchangeRateQuery { from, to }`, the `HashMap` key of the rate
table (`from` is a reserved word in Lean, hence `frm`). -/
structure ExchangeRateQuery where
  frm : Currency
  toC : Currency
deriving DecidableEq

/-- Rust `Exchange { rates: HashMap<ExchangeRateQuery, Decimal> }`. -/
structure Exchange where
  rates : ExchangeRateQuery → Option ℚ

/-- Rust `Exchange::new()`: an empty rate table. -/
def exchangeEmpty : Exchange := ⟨fun _ => none⟩

/-- Rust `Exchange::set_rate(from, to, rate)`: inserts `rate` under
`(from, to)`, then evaluates `Decimal::new(1, 0) / rate` — which panics when
`rate` is zero — and inserts the quotient under `(to, from)`.  The returned
`Bool` is `true` exactly in the panic case; the returned `Exchange` is the
table state at that point (forward entry committed, inverse entry not).
No validation of the rate is performed; there is no error return. -/
def Exchange.set_rate (ex : Exchange) (frm toC : Currency) (rate : ℚ) : Exchange × Bool :=
  if rate = 0 then
    (⟨fun q => if q = ⟨frm, toC⟩ then some rate else ex.rates q⟩, true)
  else
    (⟨fun q =>
        if q = ⟨toC, frm⟩ then some (1 / rate)
        else if q = ⟨frm, toC⟩ then some rate
        else ex.rates q⟩, false)

/-- Rust `Exchange::get_rate(from, to)`: a plain table lookup; `Err` with
`CouldNotFindExchangeRate` when the pair is absent.  There is no special
case for `from == to`. -/
def Exchange.get_rate (ex : Exchange) (frm toC : Currency) : Except MoneyError ℚ :=
  match ex.rates ⟨frm, toC⟩ with
  | some rate => .ok rate
  | none => .error .CouldNotFindExchangeRate

/-- Rust `Exchange::convert(money, currency)`: identity when already in the
target currency, otherwise scales by `get_rate` and re-tags. -/
def Exchange.convert (ex : Exchange) (money : Money) (currency : Currency) :
    Except MoneyError Money :=
  if money.currency = currency then .ok money
  else
    match ex.get_rate money.currency currency with
    | .ok rate => .ok ⟨money.amount * rate, currency⟩
    | .error e => .error e

/-- Rust `Exchange::lt(first, second)`: same-currency comparison directly,
otherwise converts `second` into `first`'s currency and compares there. -/
def Exchange.lt (ex : Exchange) (first second : Money) : Except MoneyError Bool :=
  if first.currency = second.currency then .ok (Money.lt first second)
  else
    match ex.convert second first.currency with
    | .ok second_in_first_currency => .ok (Money.lt first second_in_first_currency)
    | .error e => .error e

inductive TaxError
  | MismatchedCurrencies
  | CouldNotFindDeduction
deriving DecidableEq

structure TaxBracket where
  min_money : Money
  max_money : Option Money
  rate : ℚ
deriving DecidableEq

/-- Rust `TaxBracket::calculate_tax(taxable_income)`: zero below `min_money`;
with a max and `taxable_income >= max_money`, returns `max_money * rate`;
otherwise `(taxable_income - min_money) * rate` (the subtraction panics,
i.e. yields `none`, on a currency mismatch). -/
def TaxBracket.calculate_tax (b : TaxBracket) (taxable_income : Money) : Option Money :=
  if Money.lt taxable_income b.min_money then
    some ⟨0, b.min_money.currency⟩
  else
    match b.max_money with
    | some max_money =>
        if Money.ge taxable_income max_money then
          some (Money.mulDec max_money b.rate)
        else
          (Money.sub? taxable_income b.min_money).map (fun m => Money.mulDec m b.rate)
    | none => (Money.sub? taxable_income b.min_money).map (fun m => Money.mulDec m b.rate)

inductive TaxDeductionCategory
  | CapitalGains
  | EmployeeStockOptions
deriving DecidableEq

structure TaxDeductionRule where
  tax_deduction_type : TaxDeductionCategory
  max_amount : Option Money
  inclusion_rate : ℚ
deriving DecidableEq

structure TaxDeduction where
  tax_deduction_type : TaxDeductionCategory
  money_to_deduct : Money
deriving DecidableEq

/-- Rust `TaxDeductionRule::apply_deduction(deduction)`: when a `max_amount`
is present and `money_to_deduct <= max_amount`, returns
`max_amount * inclusion_rate`; otherwise `money_to_deduct * inclusion_rate`. -/
def TaxDeductionRule.apply_deduction (rule : TaxDeductionRule) (deduction : TaxDeduction) :
    Money :=
  match rule.max_amount with
  | some max_amount =>
      if Money.le deduction.money_to_deduct max_amount then
        Money.mulDec max_amount rule.inclusion_rate
      else
        Money.mulDec deduction.money_to_deduct rule.inclusion_rate
  | none => Money.mulDec deduction.money_to_deduct rule.inclusion_rate

/-- Rust `TaxSchedule { brackets, deductions_map, tax_currency }`. -/
structure TaxSchedule where
  brackets : List TaxBracket
  deductions_map : TaxDeductionCategory → Option TaxDeductionRule
  tax_currency : Currency

/-- Rust `TaxSchedule::set_deduction`: upsert into the deduction map. -/
def TaxSchedule.set_deduction (s : TaxSchedule) (tax_deduction_category : TaxDeductionCategory)
    (tax_deduction_rule : TaxDeductionRule) : TaxSchedule :=
  { s with
    deductions_map := fun c =>
      if c = tax_deduction_category then some tax_deduction_rule else s.deductions_map c }

/-- Loop of Rust `TaxSchedule::determine_deductions_amount`'s `try_fold`:
per element, the rule lookup happens first (`Err CouldNotFindDeduction` on a
missing category); then `money_to_deduct * inclusion_rate + acc` is computed,
whose `Money` addition panics (`none`) on a currency mismatch, aborting the
whole fold before any later element is examined. -/
def determineAux (s : TaxSchedule) : Money → List TaxDeduction →
    Option (Except TaxError Money)
  | acc, [] => some (.ok acc)
  | acc, actual_tax_deduction :: rest =>
    match s.deductions_map actual_tax_deduction.tax_deduction_type with
    | some deduction_info =>
        match Money.add?
            (Money.mulDec actual_tax_deduction.money_to_deduct deduction_info.inclusion_rate)
            acc with
        | some acc2 => determineAux s acc2 rest
        | none => none
    | none => some (.error .CouldNotFindDeduction)

/-- Rust `TaxSchedule::determine_deductions_amount(deductions)`: `try_fold`
from a zero accumulator in the schedule currency.  The outer `Option` is the
panic layer, the inner `Except` the Rust `Result`. -/
def TaxSchedule.determine_deductions_amount (s : TaxSchedule)
    (deductions : List TaxDeduction) : Option (Except TaxError Money) :=
  determineAux s ⟨0, s.tax_currency⟩ deductions

/-- Rust `TaxSchedule::calculate_tax(taxable_income)`: maps
`TaxBracket::calculate_tax` over all brackets and folds with `Money`
addition, starting from zero in the income's currency (`none` when any
bracket computation or addition panics). -/
def TaxSchedule.calculate_tax (s : TaxSchedule) (taxable_income : Money) : Option Money :=
  (s.brackets.map (fun bracket => bracket.calculate_tax taxable_income)).foldl
    (fun acc bracket_tax => acc.bind (fun a => bracket_tax.bind (fun t => Money.add? a t)))
    (some ⟨0, taxable_income.currency⟩)

/-- Rust `TaxSchedule::calculate_tax_with_deductions(income, deductions)`:
resolves the deduction total, propagates its error unchanged, and otherwise
computes `calculate_tax(income - deductions_total)` (the subtraction panics
on a currency mismatch). -/
def TaxSchedule.calculate_tax_with_deductions (s : TaxSchedule) (income : Money)
    (deductions : List TaxDeduction) : Option (Except TaxError Money) :=
  (s.determine_deductions_amount deductions).bind fun deductions_amount =>
    match deductions_amount with
    | .ok deductions_total =>
        (Money.sub? income deductions_total).bind
          (fun taxable => (s.calculate_tax taxable).map Except.ok)
    | .error error_code => some (.error error_code)

/-- Decidable equality for `Except`, used to evaluate concrete runs. -/
instance exceptDecEq {ε α : Type} [DecidableEq ε] [DecidableEq α] :
    DecidableEq (Except ε α)
  | .ok a, .ok b => decidable_of_iff (a = b) (by simp)
  | .ok _, .error _ => .isFalse (by simp)
  | .error _, .ok _ => .isFalse (by simp)
  | .error a, .error b => decidable_of_iff (a = b) (by simp)

/-- Money literal in CAD, as the `cad_money!` macro builds it. -/
def cadMoney (q : ℚ) : Money := ⟨q, .CAD⟩

/-- Money literal in USD, as the `usd_money!` macro builds it. -/
def usdMoney (q : ℚ) : Money := ⟨q, .USD⟩

/-- The `lowest` bracket of the `simple_example` test: [0, 10000) at 10%. -/
def lowestBracket : TaxBracket := ⟨cadMoney 0, some (cadMoney 10000), 1/10⟩

/-- The `middle` bracket of the `simple_example` test: [10000, 20000) at 20%. -/
def middleBracket : TaxBracket := ⟨cadMoney 10000, some (cadMoney 20000), 2/10⟩

/-- The `highest` bracket of the `simple_example` test: [20000, ∞) at 30%. -/
def highestBracket : TaxBracket := ⟨cadMoney 20000, none, 3/10⟩

/-- The concrete CAD schedule of the `simple_example` test (brackets are
already sorted by `min_money`, so `TaxSchedule::new`'s sort is the
identity here, and its currency validation succeeds). -/
def simpleSchedule : TaxSchedule :=
  ⟨[lowestBracket, middleBracket, highestBracket], fun _ => none, .CAD⟩

/-- A capital-gains rule with a cap of 1000 CAD and inclusion rate 0.5. -/
def capGainsRule : TaxDeductionRule := ⟨.CapitalGains, some (cadMoney 1000), 1/2⟩

/-- A deduction claim of 400 CAD, below the 1000 CAD cap. -/
def smallClaim : TaxDeduction := ⟨.CapitalGains, cadMoney 400⟩

/-- A deduction claim of 2000 CAD, above the 1000 CAD cap. -/
def bigClaim : TaxDeduction := ⟨.CapitalGains, cadMoney 2000⟩

/-- A one-bracket CAD schedule with the capital-gains rule registered. -/
def deductionSchedule : TaxSchedule :=
  TaxSchedule.set_deduction ⟨[⟨cadMoney 0, none, 1/10⟩], fun _ => none, .CAD⟩
    .CapitalGains capGainsRule

/-- The exchange of the crate's tests: only USD→CAD = 1.3 registered. -/
def ex13 : Exchange := (Exchange.set_rate exchangeEmpty .USD .CAD (13/10)).1

/-- The inclusion rate the fold of `determine_deductions_amount` reads for a
category (zero when unregistered, a case the theorems below exclude). -/
def inclusionRateOf (s : TaxSchedule) (c : TaxDeductionCategory) : ℚ :=
  match s.deductions_map c with
  | some rule => rule.inclusion_rate
  | none => 0

/-- The total that `determine_deductions_amount` accumulates when every
category is registered: the sum of `money_to_deduct * inclusion_rate`,
denominated in the schedule currency. -/
def deductionTotal (s : TaxSchedule) (ds : List TaxDeduction) : Money :=
  ⟨(ds.map (fun d => d.money_to_deduct.amount *
      inclusionRateOf s d.tax_deduction_type)).sum, s.tax_currency⟩

/-- Reciprocity of the stored rates for one ordered pair of currencies. -/
def pairSymmAt (ex : Exchange) (A B : Currency) : Prop :=
  (∀ v, ex.rates ⟨A, B⟩ = some v → ex.rates ⟨B, A⟩ = some (1 / v)) ∧
  (∀ v, ex.rates ⟨B, A⟩ = some v → ex.rates ⟨A, B⟩ = some (1 / v))


/-- C1: the claim states that a fully filled bracket (income at or above a
present max) is taxed at `(max - min) * rate`.  The code instead returns
`max_money * rate`: at the bracket [10000, 20000) @ 20% with income
25000 CAD it yields 4000 CAD, while the claimed formula gives 2000 CAD. -/
theorem claim_C1_counterexample :
    TaxBracket.calculate_tax middleBracket (cadMoney 25000) = some (cadMoney 4000) ∧
    cadMoney 4000 ≠ cadMoney (((20000 : ℚ) - 10000) * (2/10)) := by
  norm_num [TaxBracket.calculate_tax, middleBracket, cadMoney, Money.lt, Money.ge,
    Money.mulDec, Money.mk.injEq]

/-- C1 (amended): for every TaxBracket with a present max and every income in
the bracket's currency with income at least the max (the bracket's bounds
being ordered), `calculate_tax` returns `max * rate` — the upper bound of the
bracket times its rate, not the bracket width times its rate. -/
theorem claim_C1 (b : TaxBracket) (mx income : Money)
    (hmax : b.max_money = some mx)
    (_hminc : b.min_money.currency = income.currency)
    (hmaxc : mx.currency = income.currency)
    (hminmax : b.min_money.amount ≤ mx.amount)
    (hge : mx.amount ≤ income.amount) :
    b.calculate_tax income = some ⟨mx.amount * b.rate, mx.currency⟩ := by
  have hlt : Money.lt income b.min_money = false := by
    simp only [Money.lt, Bool.and_eq_false_iff, decide_eq_false_iff_not]
    right
    linarith
  have hge2 : Money.ge income mx = true := by
    simp only [Money.ge, Bool.and_eq_true, decide_eq_true_eq]
    exact ⟨hmaxc.symm, hge⟩
  simp [TaxBracket.calculate_tax, hlt, hmax, hge2, Money.mulDec]

/-- C1 witness: the amended statement at the [10000, 20000) @ 20% bracket
with income 25000 CAD. -/
theorem claim_C1_witness :
    TaxBracket.calculate_tax middleBracket (cadMoney 25000) =
      some ⟨(20000 : ℚ) * (2/10), Currency.CAD⟩ :=
  claim_C1 middleBracket (cadMoney 20000) (cadMoney 25000) rfl rfl rfl
    (by norm_num [middleBracket, cadMoney]) (by norm_num [cadMoney])

/-- C2: with the capital-gains rule capped at 1000 CAD and inclusion rate 0.5,
the code gives a 400 CAD claim the deductible 500 CAD (the cap times the
rate, although 400 does not exceed the cap) and a 2000 CAD claim the
deductible 1000 CAD (uncapped, although 2000 exceeds the cap): the cap
condition in `apply_deduction` is inverted relative to the claim, which
expects 200 CAD and 500 CAD respectively. -/
theorem claim_C2 :
    TaxDeductionRule.apply_deduction capGainsRule smallClaim = cadMoney 500 ∧
    TaxDeductionRule.apply_deduction capGainsRule bigClaim = cadMoney 1000 ∧
    cadMoney 500 ≠ Money.mulDec (cadMoney 400) (1/2) ∧
    cadMoney 1000 ≠ Money.mulDec (cadMoney 1000) (1/2) := by
  norm_num [TaxDeductionRule.apply_deduction, capGainsRule, smallClaim, bigClaim,
    Money.le, Money.mulDec, cadMoney, Money.mk.injEq]

/-- C3: `determine_deductions_amount` does not accumulate `apply_deduction`
results: on the 400 CAD claim whose category has the registered capped rule
it adds `money_to_deduct * inclusion_rate` = 200 CAD, while `apply_deduction`
with that matching rule yields 500 CAD, so the rule's `max_amount` has no
effect on the total. -/
theorem claim_C3 :
    deductionSchedule.determine_deductions_amount [smallClaim] =
      some (.ok (cadMoney 200)) ∧
    TaxDeductionRule.apply_deduction capGainsRule smallClaim = cadMoney 500 ∧
    deductionSchedule.deductions_map .CapitalGains = some capGainsRule ∧
    cadMoney 200 ≠ cadMoney 500 := by
  norm_num [TaxSchedule.determine_deductions_amount, determineAux, deductionSchedule,
    TaxSchedule.set_deduction, TaxDeductionRule.apply_deduction, capGainsRule,
    smallClaim, Money.le, Money.add?, Money.mulDec, cadMoney, Money.mk.injEq]

/-- C4: for the concrete CAD schedule with brackets [0,10000) @ 10%,
[10000,20000) @ 20% and [20000,∞) @ 30%, `calculate_tax` returns 6500 CAD on
25000 CAD, 2000 CAD on 15000 CAD and 500 CAD on 5000 CAD. -/
theorem claim_C4 :
    simpleSchedule.calculate_tax (cadMoney 25000) = some (cadMoney 6500) ∧
    simpleSchedule.calculate_tax (cadMoney 15000) = some (cadMoney 2000) ∧
    simpleSchedule.calculate_tax (cadMoney 5000) = some (cadMoney 500) := by
  norm_num [TaxSchedule.calculate_tax, simpleSchedule, lowestBracket, middleBracket,
    highestBracket, TaxBracket.calculate_tax, Money.lt, Money.ge, Money.sub?,
    Money.add?, Money.mulDec, cadMoney, Money.mk.injEq]

/-- C5: the claim states `get_rate(from, to)` returns 1 when the currencies
are equal even with nothing registered; on the empty exchange the code
instead fails with `CouldNotFindExchangeRate` for the pair (CAD, CAD). -/
theorem claim_C5_counterexample :
    Exchange.get_rate exchangeEmpty .CAD .CAD = .error .CouldNotFindExchangeRate ∧
    Exchange.get_rate exchangeEmpty .CAD .CAD ≠ .ok 1 :=
  ⟨rfl, by decide⟩

/-- C5 (amended): `get_rate` has no special case for equal currencies: for
every exchange and every pair it returns exactly the stored rate for the
pair, and fails with `CouldNotFindExchangeRate` exactly when no rate for the
pair is registered (the identity shortcut lives in `convert`, not here). -/
theorem claim_C5 (ex : Exchange) (frm toC : Currency) :
    (ex.get_rate frm toC = .error .CouldNotFindExchangeRate ↔
      ex.rates ⟨frm, toC⟩ = none) ∧
    ∀ r : ℚ, (ex.get_rate frm toC = .ok r ↔ ex.rates ⟨frm, toC⟩ = some r) := by
  cases h : ex.rates ⟨frm, toC⟩ <;> simp [Exchange.get_rate, h]

/-- C5 witness: the amended statement applied on the empty exchange at the
same-currency pair (CAD, CAD). -/
theorem claim_C5_witness :
    Exchange.get_rate exchangeEmpty .CAD .CAD = .error .CouldNotFindExchangeRate :=
  (claim_C5 exchangeEmpty .CAD .CAD).1.mpr rfl

/-- C6: the claim states a non-positive rate is rejected with an
InvalidRatio-class error and the table is left unchanged.  The code performs
no validation: `set_rate` with the negative rate -1 completes without panic
(no error value even exists in its signature) and commits both the forward
and the inverse entry. -/
theorem claim_C6_counterexample :
    (Exchange.set_rate exchangeEmpty .USD .CAD (-1)).2 = false ∧
    (Exchange.set_rate exchangeEmpty .USD .CAD (-1)).1.rates ⟨.USD, .CAD⟩ = some (-1) ∧
    (Exchange.set_rate exchangeEmpty .USD .CAD (-1)).1.rates ⟨.CAD, .USD⟩ = some (-1) := by
  norm_num [Exchange.set_rate, exchangeEmpty, ExchangeRateQuery.mk.injEq]

/-- C6 (amended): `set_rate` performs no rate validation and has no error
return.  A zero rate makes the Rust code panic on `Decimal` division by zero
after the forward entry is already inserted (so the table is mutated, not
left unchanged); any nonzero rate — negative ones included — completes
normally, committing the forward entry and the reciprocal inverse entry.
The `MoneyError` type contains no InvalidRatio-class variant at all. -/
theorem claim_C6 (ex : Exchange) (frm toC : Currency) (rate : ℚ) :
    (rate = 0 →
      (Exchange.set_rate ex frm toC rate).2 = true ∧
      (Exchange.set_rate ex frm toC rate).1.rates ⟨frm, toC⟩ = some rate ∧
      ∀ q, q ≠ ⟨frm, toC⟩ →
        (Exchange.set_rate ex frm toC rate).1.rates q = ex.rates q) ∧
    (rate ≠ 0 →
      (Exchange.set_rate ex frm toC rate).2 = false ∧
      (Exchange.set_rate ex frm toC rate).1.rates ⟨toC, frm⟩ = some (1 / rate) ∧
      ∀ q, q ≠ ⟨frm, toC⟩ → q ≠ ⟨toC, frm⟩ →
        (Exchange.set_rate ex frm toC rate).1.rates q = ex.rates q) ∧
    (∀ e : MoneyError, e = .CouldNotFindExchangeRate ∨ e = .MismatchedCurrencies) := by
  refine ⟨fun h0 => ?_, fun hne => ?_, fun e => by cases e <;> simp⟩
  · subst h0
    refine ⟨rfl, by simp [Exchange.set_rate], fun q hq => ?_⟩
    simp [Exchange.set_rate, hq]
  · refine ⟨by simp [Exchange.set_rate, hne], by simp [Exchange.set_rate, hne],
      fun q h1 h2 => ?_⟩
    simp [Exchange.set_rate, hne, h1, h2]

/-- C6 witness: with a zero rate on the empty exchange, the code panics
(`true` flag) with the forward entry already committed. -/
theorem claim_C6_witness :
    (Exchange.set_rate exchangeEmpty .CAD .USD 0).2 = true ∧
    (Exchange.set_rate exchangeEmpty .CAD .USD 0).1.rates ⟨.CAD, .USD⟩ = some 0 :=
  ⟨((claim_C6 exchangeEmpty .CAD .USD 0).1 rfl).1,
    ((claim_C6 exchangeEmpty .CAD .USD 0).1 rfl).2.1⟩

/-- Lookup shape of the table after a `set_rate` with a nonzero rate: the
inverse key wins, then the forward key, then the previous table. -/
theorem setRate_lookup (m : Exchange) (C D : Currency) (s : ℚ) (hs : s ≠ 0)
    (q : ExchangeRateQuery) :
    (Exchange.set_rate m C D s).1.rates q =
      if q = ⟨D, C⟩ then some (1 / s)
      else if q = ⟨C, D⟩ then some s else m.rates q := by
  simp [Exchange.set_rate, hs]

/-- One direction of pair reciprocity survives any `set_rate` with a nonzero
rate. -/
theorem setRate_pair_half (m : Exchange) (C D : Currency) (s : ℚ) (hs : s ≠ 0)
    (A B : Currency) (hab : A ≠ B)
    (hfwd : ∀ v, m.rates ⟨A, B⟩ = some v → m.rates ⟨B, A⟩ = some (1 / v)) :
    ∀ v, (Exchange.set_rate m C D s).1.rates ⟨A, B⟩ = some v →
      (Exchange.set_rate m C D s).1.rates ⟨B, A⟩ = some (1 / v) := by
  intro v hv
  rw [setRate_lookup m C D s hs] at hv
  rw [setRate_lookup m C D s hs]
  by_cases h1 : (⟨A, B⟩ : ExchangeRateQuery) = ⟨D, C⟩
  · rw [if_pos h1] at hv
    obtain ⟨hAD, hBC⟩ := (ExchangeRateQuery.mk.injEq _ _ _ _).mp h1
    have hv2 : 1 / s = v := Option.some.inj hv
    subst hAD; subst hBC
    rw [if_neg (fun h => hab ((ExchangeRateQuery.mk.injEq _ _ _ _).mp h).2)]
    rw [if_pos rfl, ← hv2, one_div_one_div]
  · rw [if_neg h1] at hv
    by_cases h2 : (⟨A, B⟩ : ExchangeRateQuery) = ⟨C, D⟩
    · rw [if_pos h2] at hv
      obtain ⟨hAC, hBD⟩ := (ExchangeRateQuery.mk.injEq _ _ _ _).mp h2
      have hv2 : s = v := Option.some.inj hv
      subst hAC; subst hBD
      rw [if_pos rfl, ← hv2]
    · rw [if_neg h2] at hv
      have hn1 : (⟨B, A⟩ : ExchangeRateQuery) ≠ ⟨D, C⟩ := fun h => by
        obtain ⟨hBD, hAC⟩ := (ExchangeRateQuery.mk.injEq _ _ _ _).mp h
        exact h2 (by rw [hBD, hAC])
      have hn2 : (⟨B, A⟩ : ExchangeRateQuery) ≠ ⟨C, D⟩ := fun h => by
        obtain ⟨hBC, hAD⟩ := (ExchangeRateQuery.mk.injEq _ _ _ _).mp h
        exact h1 (by rw [hBC, hAD])
      rw [if_neg hn1, if_neg hn2]
      exact hfwd v hv

/-- Pair reciprocity at a fixed pair of distinct currencies is preserved by
any `set_rate` with a nonzero rate. -/
theorem setRate_preserves_pairSymmAt (m : Exchange) (C D : Currency) (s : ℚ)
    (hs : s ≠ 0) (A B : Currency) (hab : A ≠ B) (h : pairSymmAt m A B) :
    pairSymmAt (Exchange.set_rate m C D s).1 A B :=
  ⟨setRate_pair_half m C D s hs A B hab h.1,
    setRate_pair_half m C D s hs B A hab.symm h.2⟩

/-- C7: for distinct currencies and a positive rate, after `set_rate(A, B, r)`
the lookups give `get_rate(A, B) = r` and `get_rate(B, A) = 1/r`, the stored
pair is reciprocal, and this reciprocity of the (A, B) pair is preserved by
every subsequent `set_rate` call with a positive rate. -/
theorem claim_C7 (ex : Exchange) (A B : Currency) (r : ℚ) (hab : A ≠ B) (hr : 0 < r) :
    Exchange.get_rate (Exchange.set_rate ex A B r).1 A B = .ok r ∧
    Exchange.get_rate (Exchange.set_rate ex A B r).1 B A = .ok (1 / r) ∧
    pairSymmAt (Exchange.set_rate ex A B r).1 A B ∧
    ∀ (ex2 : Exchange) (C D : Currency) (s : ℚ), 0 < s →
      pairSymmAt ex2 A B → pairSymmAt (Exchange.set_rate ex2 C D s).1 A B := by
  have hr0 : r ≠ 0 := ne_of_gt hr
  have hky : (⟨A, B⟩ : ExchangeRateQuery) ≠ ⟨B, A⟩ := fun h =>
    hab ((ExchangeRateQuery.mk.injEq _ _ _ _).mp h).1
  have h1 : (Exchange.set_rate ex A B r).1.rates ⟨A, B⟩ = some r := by
    rw [setRate_lookup ex A B r hr0, if_neg hky, if_pos rfl]
  have h2 : (Exchange.set_rate ex A B r).1.rates ⟨B, A⟩ = some (1 / r) := by
    rw [setRate_lookup ex A B r hr0, if_pos rfl]
  refine ⟨by simp [Exchange.get_rate, h1], by simp [Exchange.get_rate, h2], ⟨?_, ?_⟩, ?_⟩
  · intro v hv
    have : r = v := Option.some.inj (h1 ▸ hv)
    rw [h2, ← this]
  · intro v hv
    have hvr : 1 / r = v := Option.some.inj (h2 ▸ hv)
    rw [h1, ← hvr, one_div_one_div]
  · intro ex2 C D s hs hsym
    exact setRate_preserves_pairSymmAt ex2 C D s (ne_of_gt hs) A B hab hsym

/-- C7 witness: registering USD→CAD = 1.3 on the empty exchange. -/
theorem claim_C7_witness :
    Exchange.get_rate (Exchange.set_rate exchangeEmpty .USD .CAD (13/10)).1 .USD .CAD =
      .ok (13/10) :=
  (claim_C7 exchangeEmpty .USD .CAD (13/10) (by decide) (by norm_num)).1

/-- C8: `Exchange::lt` compares in the first operand's currency — on
differing currencies it converts the second operand into the first's
currency and compares there — and with only USD→CAD = 1.3 registered,
`lt(1 USD, 2 CAD)` is true while `lt(2 CAD, 1 USD)` is false. -/
theorem claim_C8 :
    (∀ (ex : Exchange) (first second : Money), first.currency ≠ second.currency →
      Exchange.lt ex first second =
        Except.map (fun m => Money.lt first m) (ex.convert second first.currency)) ∧
    Exchange.lt ex13 (usdMoney 1) (cadMoney 2) = .ok true ∧
    Exchange.lt ex13 (cadMoney 2) (usdMoney 1) = .ok false := by
  refine ⟨fun ex first second h => ?_, ?_, ?_⟩
  · rcases hc : ex.convert second first.currency with e | m <;>
      simp [Exchange.lt, h, hc, Except.map]
  · norm_num [Exchange.lt, ex13, Exchange.convert, Exchange.get_rate, Exchange.set_rate,
      exchangeEmpty, ExchangeRateQuery.mk.injEq, usdMoney, cadMoney, Money.lt,
      (show ¬Currency.USD = Currency.CAD by decide),
      (show ¬Currency.CAD = Currency.USD by decide)]
  · norm_num [Exchange.lt, ex13, Exchange.convert, Exchange.get_rate, Exchange.set_rate,
      exchangeEmpty, ExchangeRateQuery.mk.injEq, usdMoney, cadMoney, Money.lt,
      (show ¬Currency.USD = Currency.CAD by decide),
      (show ¬Currency.CAD = Currency.USD by decide)]

/-- C8 witness: the conversion convention applied at the literal pair of the
test exchange. -/
theorem claim_C8_witness :
    Exchange.lt ex13 (usdMoney 1) (cadMoney 2) =
      Except.map (fun m => Money.lt (usdMoney 1) m)
        (ex13.convert (cadMoney 2) Currency.USD) :=
  claim_C8.1 ex13 (usdMoney 1) (cadMoney 2) (by decide)

/-- Folding step of `determine_deductions_amount` when every category in the
list is registered and every claimed amount is in the schedule currency: the
fold completes with the running amount plus the sum of
`money_to_deduct * inclusion_rate`. -/
theorem determineAux_all_found (s : TaxSchedule) (ds : List TaxDeduction) :
    ∀ acc : Money, acc.currency = s.tax_currency →
    (∀ d ∈ ds, d.money_to_deduct.currency = s.tax_currency) →
    (∀ d ∈ ds, (s.deductions_map d.tax_deduction_type).isSome) →
    determineAux s acc ds = some (.ok ⟨acc.amount +
      (ds.map (fun d => d.money_to_deduct.amount *
        inclusionRateOf s d.tax_deduction_type)).sum, s.tax_currency⟩) := by
  induction ds with
  | nil =>
    intro acc hacc _ _
    obtain ⟨am, cu⟩ := acc
    simp only [Money.currency] at hacc
    subst hacc
    simp [determineAux]
  | cons d rest ih =>
    intro acc hacc hcur hreg
    obtain ⟨rule, hrule⟩ := Option.isSome_iff_exists.mp (hreg d (by simp))
    have hcd : d.money_to_deduct.currency = s.tax_currency := hcur d (by simp)
    have hadd : Money.add? (Money.mulDec d.money_to_deduct rule.inclusion_rate) acc =
        some ⟨d.money_to_deduct.amount * rule.inclusion_rate + acc.amount,
          s.tax_currency⟩ := by
      simp [Money.add?, Money.mulDec, hcd, hacc]
    simp only [determineAux, hrule, hadd]
    rw [ih ⟨d.money_to_deduct.amount * rule.inclusion_rate + acc.amount, s.tax_currency⟩
      rfl (fun x hx => hcur x (by simp [hx])) (fun x hx => hreg x (by simp [hx]))]
    simp only [List.map_cons, List.sum_cons, Option.some.injEq, Except.ok.injEq,
      Money.mk.injEq, inclusionRateOf, hrule]
    exact ⟨by ring, trivial⟩

/-- Folding step of `determine_deductions_amount` when some category in the
list is unregistered (the claimed amounts being in the schedule currency):
the fold aborts with `CouldNotFindDeduction` and no partial result. -/
theorem determineAux_missing (s : TaxSchedule) (ds : List TaxDeduction) :
    ∀ acc : Money, acc.currency = s.tax_currency →
    (∀ d ∈ ds, d.money_to_deduct.currency = s.tax_currency) →
    (∃ d ∈ ds, s.deductions_map d.tax_deduction_type = none) →
    determineAux s acc ds = some (.error .CouldNotFindDeduction) := by
  induction ds with
  | nil =>
    intro acc _ _ hex
    simp at hex
  | cons d rest ih =>
    intro acc hacc hcur hex
    cases hrule : s.deductions_map d.tax_deduction_type with
    | none => simp [determineAux, hrule]
    | some rule =>
      have hcd : d.money_to_deduct.currency = s.tax_currency := hcur d (by simp)
      have hadd : Money.add? (Money.mulDec d.money_to_deduct rule.inclusion_rate) acc =
          some ⟨d.money_to_deduct.amount * rule.inclusion_rate + acc.amount,
            s.tax_currency⟩ := by
        simp [Money.add?, Money.mulDec, hcd, hacc]
      simp only [determineAux, hrule, hadd]
      apply ih _ rfl (fun x hx => hcur x (by simp [hx]))
      obtain ⟨x, hx, hnone⟩ := hex
      rcases List.mem_cons.mp hx with h | h
      · subst h
        rw [hrule] at hnone
        exact absurd hnone (by simp)
      · exact ⟨x, h, hnone⟩

/-- C9: for deduction claims in the schedule currency, when some claimed
category has no registered rule `calculate_tax_with_deductions` returns the
error `CouldNotFindDeduction` (no tax figure at all); when every category is
registered, the deduction total resolves and the result is exactly
`calculate_tax(income - deduction_total)` (the panic layer of the
subtraction, for an income outside the schedule currency, propagating
identically on both sides). -/
theorem claim_C9 (s : TaxSchedule) (income : Money) (ds : List TaxDeduction)
    (hcur : ∀ d ∈ ds, d.money_to_deduct.currency = s.tax_currency) :
    ((∃ d ∈ ds, s.deductions_map d.tax_deduction_type = none) →
      s.calculate_tax_with_deductions income ds = some (.error .CouldNotFindDeduction)) ∧
    ((∀ d ∈ ds, (s.deductions_map d.tax_deduction_type).isSome) →
      s.determine_deductions_amount ds = some (.ok (deductionTotal s ds)) ∧
      s.calculate_tax_with_deductions income ds =
        (Money.sub? income (deductionTotal s ds)).bind
          (fun taxable => (s.calculate_tax taxable).map Except.ok)) := by
  constructor
  · intro hex
    have hd := determineAux_missing s ds ⟨0, s.tax_currency⟩ rfl hcur hex
    simp [TaxSchedule.calculate_tax_with_deductions,
      TaxSchedule.determine_deductions_amount, hd]
  · intro hreg
    have hd := determineAux_all_found s ds ⟨0, s.tax_currency⟩ rfl hcur hreg
    have htot : (⟨(0 : ℚ) + (ds.map (fun d => d.money_to_deduct.amount *
        inclusionRateOf s d.tax_deduction_type)).sum, s.tax_currency⟩ : Money) =
        deductionTotal s ds := by
      simp [deductionTotal]
    constructor
    · rw [TaxSchedule.determine_deductions_amount, hd, htot]
    · rw [TaxSchedule.calculate_tax_with_deductions,
        TaxSchedule.determine_deductions_amount, hd, htot]
      rfl

/-- C9 witness: a claim with the unregistered EmployeeStockOptions category
surfaces `CouldNotFindDeduction`. -/
theorem claim_C9_witness :
    deductionSchedule.calculate_tax_with_deductions (cadMoney 10000)
      [⟨.EmployeeStockOptions, cadMoney 100⟩] = some (.error .CouldNotFindDeduction) :=
  (claim_C9 deductionSchedule (cadMoney 10000) [⟨.EmployeeStockOptions, cadMoney 100⟩]
    (by decide)).1 (by decide)

/-- C10: `set_rate(A, A, r)` uses the same key for both inserts, so the
inverse insert overwrites the forward one and a subsequent `get_rate(A, A)`
returns `1/r` (for a zero rate the division itself panics, so no lookup ever
follows). -/
theorem claim_C10 (ex : Exchange) (A : Currency) (r : ℚ) (hr : r ≠ 0) :
    (Exchange.set_rate ex A A r).1.rates ⟨A, A⟩ = some (1 / r) ∧
    Exchange.get_rate (Exchange.set_rate ex A A r).1 A A = .ok (1 / r) := by
  have h : (Exchange.set_rate ex A A r).1.rates ⟨A, A⟩ = some (1 / r) := by
    rw [setRate_lookup ex A A r hr, if_pos rfl]
  exact ⟨h, by simp [Exchange.get_rate, h]⟩

/-- C10 witness: a same-currency registration at rate 2 reads back 1/2. -/
theorem claim_C10_witness :
    Exchange.get_rate (Exchange.set_rate exchangeEmpty .CAD .CAD 2).1 .CAD .CAD =
      .ok (1 / 2) :=
  (claim_C10 exchangeEmpty .CAD 2 (by norm_num)).2
